import Mathlib

/-!
Shallow embedding of the LocalChefBazaar backend (src/index.js).

The MongoDB collections of database localBazarChef are modelled as lists of
documents inside a DB record.  MongoDB semantics used by the code:
findOne returns the first matching document, updateOne updates the first
matching document (a no-op when nothing matches), deleteOne removes the
first matching document, insertOne appends, and find returns documents in
insertion order.  JS numbers that carry ratings are modelled as rationals;
Date timestamps as naturals supplied by the caller; ObjectId keys as strings.
Each Express handler becomes a pure function from the request data and the
DB to a response paired with the next DB.
-/

/-- HTTP-level outcome of a handler: a 200 payload or an error status with
its message string. -/
inductive Resp (α : Type) where
  | ok : α → Resp α
  | err : Nat → String → Resp α
deriving DecidableEq

/-- Document of the add-food collection (the fields the core logic touches). -/
structure Meal where
  id : String
  userEmail : String
  foodName : String
  rating : ℚ
deriving DecidableEq

/-- Document of the reviews collection. -/
structure Review where
  id : String
  foodId : String
  reviewerEmail : String
  rating : ℚ
  date : Nat
deriving DecidableEq

/-- Request body of POST /reviews (the date stamp is added by the handler). -/
structure ReviewInput where
  id : String
  foodId : String
  reviewerEmail : String
  rating : ℚ
deriving DecidableEq

/-- Document of the favorites collection. -/
structure Favorite where
  id : String
  userEmail : String
  mealId : String
  addedTime : Nat
deriving DecidableEq

/-- Request body of POST /favorites (addedTime is stamped by the handler). -/
structure FavoriteInput where
  id : String
  userEmail : String
  mealId : String
deriving DecidableEq

/-- Document of the order-collection. -/
structure Order where
  id : String
  userEmail : String
  chefId : String
  orderTime : Nat
  orderStatus : String
  paymentStatus : String
  paidAt : Option Nat
deriving DecidableEq

/-- Request body of POST /orders (orderTime, orderStatus, paymentStatus are
stamped by the handler). -/
structure OrderInput where
  id : String
  userEmail : String
  chefId : String
deriving DecidableEq

/-- The four collections the claims touch. -/
structure DB where
  foods : List Meal
  reviews : List Review
  favorites : List Favorite
  orders : List Order
deriving DecidableEq

/-- MongoDB updateOne: apply f to the first element matching p, keep the
rest unchanged. -/
def updateFirst (p : α → Bool) (f : α → α) : List α → List α
  | [] => []
  | x :: xs => if p x then f x :: xs else x :: updateFirst p f xs

/-- Insert x into a list kept in descending key order (helper of the
sort-descending used by the sort-by-field-descending queries). -/
def insertDescBy (key : α → Nat) (x : α) : List α → List α
  | [] => [x]
  | y :: ys => if key y ≤ key x then x :: y :: ys else y :: insertDescBy key x ys

/-- Sort a list by a Nat key in descending order, modelling the sort-by-field-descending query modifier. -/
def sortDescBy (key : α → Nat) : List α → List α
  | [] => []
  | x :: xs => insertDescBy key x (sortDescBy key xs)

/-- Status strings of the order lifecycle. -/
def sPending : String := "pending"

/-- Requested or stored status accepted. -/
def sAccepted : String := "accepted"

/-- Requested or stored status cancelled. -/
def sCancelled : String := "cancelled"

/-- Requested or stored status delivered. -/
def sDelivered : String := "delivered"

/-- The paid value of paymentStatus. -/
def sPaid : String := "paid"

/-- The validStatus array of PATCH /orders/:id/status. -/
def validStatus : List String := ["accepted", "cancelled", "delivered"]

/-- POST /reviews: stamp date, insert the review, recompute the mean rating
over all reviews with the same foodId (reduce of the rating fields divided by
the count, 0 when empty), and write it into the first meal with that id.
Returns the computed average. -/
def submitReview (db : DB) (input : ReviewInput) (now : Nat) : Resp ℚ × DB :=
  let newReview : Review :=
    { id := input.id, foodId := input.foodId,
      reviewerEmail := input.reviewerEmail, rating := input.rating, date := now }
  let reviews' := db.reviews ++ [newReview]
  let matching := reviews'.filter (fun r => r.foodId == input.foodId)
  let avgRating : ℚ :=
    if matching.length > 0 then
      (matching.foldl (fun s r => s + r.rating) 0) / (matching.length : ℚ)
    else 0
  let foods' := updateFirst (fun m => m.id == input.foodId)
      (fun m => { m with rating := avgRating }) db.foods
  (Resp.ok avgRating, { db with reviews := reviews', foods := foods' })

/-- GET /reviews?email=: self-access check against the token email, then the
reviews of that reviewer sorted by date descending, each joined with the food
name of its meal (or the unknown-food fallback). -/
def getReviews (db : DB) (email : String) (tokenEmail : String) :
    Resp (List (Review × String)) × DB :=
  if email ≠ tokenEmail then (Resp.err 403 "Forbidden", db)
  else
    let reviews := sortDescBy (fun r => r.date)
      (db.reviews.filter (fun r => r.reviewerEmail == email))
    let withNames := reviews.map (fun r =>
      (r, match db.foods.find? (fun f => f.id == r.foodId) with
          | some f => f.foodName
          | none => "Unknown Food"))
    (Resp.ok withNames, db)

/-- DELETE /reviews/:id: 404 when absent, 403 when the token email is not the
author, otherwise delete the review document only. -/
def deleteReview (db : DB) (rid : String) (tokenEmail : String) : Resp Unit × DB :=
  match db.reviews.find? (fun r => r.id == rid) with
  | none => (Resp.err 404 "Review not found", db)
  | some review =>
    if review.reviewerEmail ≠ tokenEmail then (Resp.err 403 "Forbidden", db)
    else (Resp.ok (), { db with reviews := db.reviews.eraseP (fun r => r.id == rid) })

/-- POST /favorites: pre-insert existence check on (userEmail, mealId); on a
hit answer success false and change nothing, otherwise stamp addedTime and
insert.  The Bool is the success flag of the 200 response. -/
def addFavorite (db : DB) (input : FavoriteInput) (now : Nat) : Bool × DB :=
  match db.favorites.find?
      (fun f => f.userEmail == input.userEmail && f.mealId == input.mealId) with
  | some _ => (false, db)
  | none =>
    let fav : Favorite :=
      { id := input.id, userEmail := input.userEmail,
        mealId := input.mealId, addedTime := now }
    (true, { db with favorites := db.favorites ++ [fav] })

/-- GET /favorites?email=: self-access check, then the favorites of that user
sorted by addedTime descending. -/
def getFavorites (db : DB) (email : String) (tokenEmail : String) :
    Resp (List Favorite) × DB :=
  if email ≠ tokenEmail then (Resp.err 403 "Forbidden", db)
  else
    (Resp.ok (sortDescBy (fun f => f.addedTime)
      (db.favorites.filter (fun f => f.userEmail == email))), db)

/-- POST /orders: stamp orderTime and the initial pending/pending statuses,
then insert. -/
def createOrder (db : DB) (input : OrderInput) (now : Nat) : Resp Unit × DB :=
  let order : Order :=
    { id := input.id, userEmail := input.userEmail, chefId := input.chefId,
      orderTime := now, orderStatus := sPending, paymentStatus := sPending,
      paidAt := none }
  (Resp.ok (), { db with orders := db.orders ++ [order] })

/-- GET /orders?email=: self-access check, then the orders of that buyer. -/
def getOrders (db : DB) (email : String) (tokenEmail : String) :
    Resp (List Order) × DB :=
  if email ≠ tokenEmail then (Resp.err 403 "Forbidden", db)
  else (Resp.ok (db.orders.filter (fun o => o.userEmail == email)), db)

/-- PATCH /orders/:id/status: reject a status outside validStatus, 404 when
the order is absent, reject when the current status is closed, reject
delivered unless the current status is accepted, otherwise set orderStatus. -/
def setStatus (db : DB) (oid : String) (status : String) : Resp Unit × DB :=
  if status ∉ validStatus then (Resp.err 400 "Invalid status", db)
  else
    match db.orders.find? (fun o => o.id == oid) with
    | none => (Resp.err 404 "Order not found", db)
    | some order =>
      if order.orderStatus ∈ [sCancelled, sDelivered] then
        (Resp.err 400 "Order already closed", db)
      else if status = sDelivered ∧ order.orderStatus ≠ sAccepted then
        (Resp.err 400 "Order must be accepted first", db)
      else
        (Resp.ok (), { db with orders := (updateFirst (fun o => o.id == oid)
            (fun o => { o with orderStatus := status }) db.orders) })

/-- PATCH /orders/:id/pay: updateOne directly, setting paymentStatus paid and
stamping paidAt; the handler always answers success true. -/
def markPaid (db : DB) (oid : String) (now : Nat) : Resp Unit × DB :=
  (Resp.ok (), { db with orders := (updateFirst (fun o => o.id == oid)
      (fun o => { o with paymentStatus := sPaid, paidAt := some now }) db.orders) })

/-- DELETE /orders/:id: 404 when absent, 403 when the token email is not the
buyer, otherwise delete the order document. -/
def deleteOrder (db : DB) (oid : String) (tokenEmail : String) : Resp Unit × DB :=
  match db.orders.find? (fun o => o.id == oid) with
  | none => (Resp.err 404 "Order not found", db)
  | some order =>
    if order.userEmail ≠ tokenEmail then (Resp.err 403 "Forbidden", db)
    else (Resp.ok (), { db with orders := db.orders.eraseP (fun o => o.id == oid) })

/-- Sequential execution of a batch of POST /reviews requests, each with its
own date stamp. -/
def runReviews (db : DB) : List (ReviewInput × Nat) → DB
  | [] => db
  | a :: t => runReviews (submitReview db a.1 a.2).2 t

/-- Sequential execution of a batch of POST /favorites requests. -/
def runFavorites (db : DB) : List (FavoriteInput × Nat) → DB
  | [] => db
  | a :: t => runFavorites (addFavorite db a.1 a.2).2 t

/-- Arithmetic mean of the rating fields of a list of reviews. -/
def meanOfRatings (l : List Review) : ℚ :=
  ((l.map (fun r => r.rating)).sum) / (l.length : ℚ)

/-- At most one favorite per (userEmail, mealId) pair. -/
def favUnique (l : List Favorite) : Prop :=
  l.Pairwise (fun a b => ¬(a.userEmail = b.userEmail ∧ a.mealId = b.mealId))

/-- The status changes the spec's lifecycle chain permits: forward along
pending, accepted, delivered, or sideways to cancelled. -/
def allowedChange (s t : String) : Prop :=
  (s = sPending ∧ (t = sAccepted ∨ t = sCancelled)) ∨
  (s = sAccepted ∧ (t = sDelivered ∨ t = sCancelled))

/-- Sample meal id used by the concrete instantiations below. -/
def midW : String := "m1"

/-- Sample order id. -/
def oidW : String := "o1"

/-- Sample review id. -/
def ridW : String := "r1"

/-- Sample buyer email. -/
def aliceW : String := "alice"

/-- Sample second email, distinct from the buyer. -/
def bobW : String := "bob"

/-- Sample chef email. -/
def chefW : String := "chef"

/-- Sample meal document. -/
def mealW : Meal := { id := midW, userEmail := chefW, foodName := "Rice", rating := 0 }

/-- Sample review inputs referencing the sample meal. -/
def rinW1 : ReviewInput := { id := "r1", foodId := midW, reviewerEmail := bobW, rating := 4 }

/-- Second sample review input for the same meal. -/
def rinW2 : ReviewInput := { id := "r2", foodId := midW, reviewerEmail := aliceW, rating := 2 }

/-- Database holding only the sample meal. -/
def dbW : DB := { foods := [mealW], reviews := [], favorites := [], orders := [] }

/-- Empty database. -/
def dbEmpty : DB := { foods := [], reviews := [], favorites := [], orders := [] }

/-- Sample pending order owned by the sample buyer. -/
def orderW : Order :=
  { id := oidW, userEmail := aliceW, chefId := chefW, orderTime := 0,
    orderStatus := sPending, paymentStatus := sPending, paidAt := none }

/-- The sample order after acceptance. -/
def orderAccepted : Order := { orderW with orderStatus := sAccepted }

/-- Sample delivered (terminal) order. -/
def orderDelivered : Order := { orderW with orderStatus := sDelivered }

/-- Database holding the sample pending order. -/
def dbOrders : DB := { foods := [], reviews := [], favorites := [], orders := [orderW] }

/-- Database holding the accepted sample order. -/
def dbOrdersAccepted : DB := { dbOrders with orders := [orderAccepted] }

/-- Database holding the delivered sample order. -/
def dbTerm : DB := { foods := [], reviews := [], favorites := [], orders := [orderDelivered] }

/-- Sample stored review authored by the second user. -/
def reviewW : Review := { id := ridW, foodId := midW, reviewerEmail := bobW, rating := 4, date := 3 }

/-- Database holding the sample review. -/
def dbRev : DB := { foods := [], reviews := [reviewW], favorites := [], orders := [] }

/-- Sample favorite insertion request. -/
def favInW : FavoriteInput := { id := "f1", userEmail := aliceW, mealId := midW }

/-- Sample stored favorite with the same pair. -/
def favW : Favorite := { id := "f1", userEmail := aliceW, mealId := midW, addedTime := 5 }

/-- Database holding the sample favorite. -/
def dbFav : DB := { foods := [], reviews := [], favorites := [favW], orders := [] }

/-- Looking up with p after updating the first p-match applies the update to
the lookup result, provided the update preserves p. -/
theorem find?_updateFirst (p : α → Bool) (f : α → α) (l : List α)
    (hpf : ∀ x, p (f x) = p x) :
    (updateFirst p f l).find? p = (l.find? p).map f := by
  induction l with
  | nil => simp [updateFirst]
  | cons x xs ih =>
    by_cases h : p x
    · simp [updateFirst, h, List.find?_cons_of_pos, hpf x]
    · simp only [updateFirst, h, Bool.false_eq_true, if_false]
      rw [List.find?_cons_of_neg _ (by simp [h]), List.find?_cons_of_neg _ (by simp [h]), ih]

/-- With no p-match, updating the first p-match changes nothing. -/
theorem updateFirst_of_none (p : α → Bool) (f : α → α) (l : List α)
    (h : l.find? p = none) : updateFirst p f l = l := by
  induction l with
  | nil => rfl
  | cons x xs ih =>
    rw [List.find?_eq_none] at h
    have hx : ¬ p x := by simpa using h x (by simp)
    rw [List.find?_eq_none] at ih
    simp only [updateFirst, hx, Bool.false_eq_true, if_false]
    rw [ih (fun a ha => h a (by simp [ha]))]

/-- Folding the rating sum of the reduce in POST /reviews equals the list sum. -/
theorem foldl_rating_sum (l : List Review) (a : ℚ) :
    l.foldl (fun s r => s + r.rating) a = a + (l.map (fun r => r.rating)).sum := by
  induction l generalizing a with
  | nil => simp
  | cons x xs ih => simp only [List.foldl_cons, List.map_cons, List.sum_cons, ih]; ring

/-- When the keys are distinct, erasing the first key-match leaves no
key-match behind. -/
theorem find?_eraseP_of_nodup (key : α → String) (k : String) (l : List α)
    (h : (l.map key).Nodup) :
    (l.eraseP (fun x => key x == k)).find? (fun x => key x == k) = none := by
  induction l with
  | nil => simp
  | cons x xs ih =>
    simp only [List.map_cons, List.nodup_cons] at h
    by_cases hx : key x == k
    · rw [List.eraseP_cons_of_pos (p := fun y => key y == k) hx, List.find?_eq_none]
      intro a ha
      simp only [beq_iff_eq] at hx ⊢
      intro hak
      exact h.1 (by rw [hx.trans hak.symm]; exact List.mem_map_of_mem key ha)
    · rw [List.eraseP_cons_of_neg (p := fun y => key y == k) (by simpa using hx),
        List.find?_cons_of_neg _ (by simpa using hx)]
      exact ih h.2

/-- Updating the first p-match with an update that preserves q does not change
whether a q-match exists. -/
theorem find?_isSome_updateFirst (p q : α → Bool) (f : α → α) (l : List α)
    (hqf : ∀ x, q (f x) = q x) :
    ((updateFirst p f l).find? q).isSome = (l.find? q).isSome := by
  induction l with
  | nil => simp [updateFirst]
  | cons x xs ih =>
    by_cases hp : p x
    · simp only [updateFirst, hp, if_true]
      by_cases hq : q x
      · rw [List.find?_cons_of_pos _ (by rw [hqf]; exact hq), List.find?_cons_of_pos _ hq]
        rfl
      · rw [List.find?_cons_of_neg _ (by rw [hqf]; simpa using hq),
          List.find?_cons_of_neg _ (by simpa using hq)]
    · simp only [updateFirst, hp, Bool.false_eq_true, if_false]
      by_cases hq : q x
      · rw [List.find?_cons_of_pos _ hq, List.find?_cons_of_pos _ hq]
      · rw [List.find?_cons_of_neg _ (by simpa using hq),
          List.find?_cons_of_neg _ (by simpa using hq)]
        exact ih

/-- One review submission leaves the meal's stored rating equal to the mean of
the stored ratings for that foodId, provided the meal exists. -/
theorem submitReview_sets_mean (db : DB) (input : ReviewInput) (now : Nat)
    (hm : ((db.foods.find? (fun m => m.id == input.foodId))).isSome) :
    ∃ m, ((submitReview db input now).2.foods.find? (fun m => m.id == input.foodId)) = some m ∧
      m.rating = meanOfRatings
        (((submitReview db input now).2.reviews.filter (fun r => r.foodId == input.foodId))) := by
  obtain ⟨m0, hm0⟩ := Option.isSome_iff_exists.mp hm
  simp only [submitReview]
  rw [find?_updateFirst]
  · rw [hm0]
    refine ⟨_, rfl, ?_⟩
    have hlen : ((db.reviews ++ [(⟨input.id, input.foodId, input.reviewerEmail,
        input.rating, now⟩ : Review)]).filter (fun r => r.foodId == input.foodId)).length > 0 := by
      rw [List.filter_append]
      simp
    rw [if_pos hlen, foldl_rating_sum, zero_add, meanOfRatings]
  · intro x
    rfl

/-- A review submission never removes a meal from the food collection. -/
theorem submitReview_keeps_meal (db : DB) (input : ReviewInput) (now : Nat) (F : String)
    (hm : ((db.foods.find? (fun m => m.id == F))).isSome) :
    ((((submitReview db input now).2.foods.find? (fun m => m.id == F)))).isSome := by
  simp only [submitReview]
  rw [find?_isSome_updateFirst]
  · exact hm
  · intro x
    rfl

/-- No sequence of review submissions removes a meal from the food
collection. -/
theorem runReviews_keeps_meal (l : List (ReviewInput × Nat)) (db : DB) (F : String)
    (hm : ((db.foods.find? (fun m => m.id == F))).isSome) :
    ((((runReviews db l).foods.find? (fun m => m.id == F)))).isSome := by
  induction l generalizing db with
  | nil => simpa [runReviews] using hm
  | cons a t ih =>
    rw [runReviews]
    exact ih _ (submitReview_keeps_meal db a.1 a.2 F hm)

/-- Running a batch of submissions splits along list append. -/
theorem runReviews_append (db : DB) (l₁ l₂ : List (ReviewInput × Nat)) :
    runReviews db (l₁ ++ l₂) = runReviews (runReviews db l₁) l₂ := by
  induction l₁ generalizing db with
  | nil => rfl
  | cons a t ih => rw [List.cons_append, runReviews, runReviews, ih]

/-- C1: for every meal F and every nonempty sequence of sequentially executed
submitReview operations whose reviews all reference F, after the last
submission the meal's stored rating equals the arithmetic mean of the rating
fields of all reviews currently stored with foodId F. -/
theorem C1_rating_is_mean (db : DB) (F : String) (rs : List (ReviewInput × Nat))
    (hne : rs ≠ []) (hF : ∀ p ∈ rs, p.1.foodId = F)
    (hm : ((db.foods.find? (fun m => m.id == F))).isSome) :
    ∃ m, (runReviews db rs).foods.find? (fun m => m.id == F) = some m ∧
      m.rating = meanOfRatings
        (((runReviews db rs).reviews.filter (fun r => r.foodId == F))) := by
  obtain ⟨l, a, rfl⟩ := (List.eq_nil_or_concat rs).resolve_left hne
  rw [List.concat_eq_append] at hF ⊢
  have ha : a.1.foodId = F := hF a (by simp)
  have hm' := runReviews_keeps_meal l db F hm
  rw [runReviews_append, runReviews, runReviews, ← ha]
  rw [← ha] at hm'
  exact submitReview_sets_mean (runReviews db l) a.1 a.2 hm'

/-- Success characterization of PATCH /orders/:id/status: it answers ok
exactly when the requested status is valid, the order exists, its current
status is not closed, and delivered is only requested from accepted; the
update then rewrites the order's status. -/
theorem setStatus_ok_iff (db : DB) (oid status : String) (res : DB) :
    setStatus db oid status = (Resp.ok (), res) ↔
      status ∈ validStatus ∧
      ∃ o, db.orders.find? (fun x => x.id == oid) = some o ∧
        o.orderStatus ∉ [sCancelled, sDelivered] ∧
        ¬(status = sDelivered ∧ o.orderStatus ≠ sAccepted) ∧
        res = { db with orders := (updateFirst (fun x => x.id == oid)
          (fun x => { x with orderStatus := status }) db.orders) } := by
  constructor
  · intro h
    by_cases h1 : status ∈ validStatus
    · cases hfo : db.orders.find? (fun x => x.id == oid) with
      | none =>
        simp only [setStatus, hfo, if_neg (not_not_intro h1)] at h
        exact absurd h (by simp)
      | some o =>
        simp only [setStatus, hfo, if_neg (not_not_intro h1)] at h
        by_cases h2 : o.orderStatus ∈ [sCancelled, sDelivered]
        · rw [if_pos h2] at h
          exact absurd h (by simp)
        · rw [if_neg h2] at h
          by_cases h3 : status = sDelivered ∧ o.orderStatus ≠ sAccepted
          · rw [if_pos h3] at h
            exact absurd h (by simp)
          · rw [if_neg h3] at h
            refine ⟨h1, o, rfl, h2, h3, ?_⟩
            simpa using (congrArg Prod.snd h).symm
    · simp only [setStatus, if_pos (by simpa using h1)] at h
      exact absurd h (by simp)
  · rintro ⟨h1, o, hfo, h2, h3, rfl⟩
    simp only [setStatus, hfo, if_neg (not_not_intro h1)]
    rw [if_neg h2, if_neg h3]

/-- C2: setStatus on an order whose current orderStatus is cancelled or
delivered fails with the 400 already-closed error for every requested status
in the valid set, and the database, hence the order document, is unchanged. -/
theorem C2_terminal_rejects (db : DB) (oid status : String) (o : Order)
    (hfind : db.orders.find? (fun x => x.id == oid) = some o)
    (hterm : o.orderStatus ∈ [sCancelled, sDelivered])
    (hreq : status ∈ validStatus) :
    setStatus db oid status = (Resp.err 400 "Order already closed", db) := by
  simp only [setStatus, hfind, if_neg (not_not_intro hreq)]
  rw [if_pos hterm]

/-- C3: setStatus with requested status delivered fails with a 400
invalid-transition error whenever the existing order's current status is not
accepted, and the database is unchanged. -/
theorem C3_delivered_needs_accepted (db : DB) (oid : String) (o : Order)
    (hfind : db.orders.find? (fun x => x.id == oid) = some o)
    (hna : o.orderStatus ≠ sAccepted) :
    ∃ msg, setStatus db oid sDelivered = (Resp.err 400 msg, db) := by
  have hv : sDelivered ∈ validStatus := by simp [sDelivered, validStatus]
  by_cases hterm : o.orderStatus ∈ [sCancelled, sDelivered]
  · have hdone : setStatus db oid sDelivered = (Resp.err 400 "Order already closed", db) := by
      simp only [setStatus, hfind, if_neg (not_not_intro hv)]
      rw [if_pos hterm]
    exact ⟨_, hdone⟩
  · have hdone : setStatus db oid sDelivered
        = (Resp.err 400 "Order must be accepted first", db) := by
      simp only [setStatus, hfind, if_neg (not_not_intro hv)]
      rw [if_neg hterm, if_pos ⟨trivial, hna⟩]
    exact ⟨_, hdone⟩

/-- C4: orders are created pending; a successful setStatus that changes the
status of an order whose status lies in the lifecycle set only moves along
pending to accepted or cancelled, or accepted to delivered or cancelled; and
on a delivered or cancelled order setStatus never succeeds and never changes
the database. -/
theorem C4_lifecycle :
    (∀ (db : DB) (input : OrderInput) (now : Nat),
       ∃ o : Order, (createOrder db input now).2.orders = db.orders ++ [o] ∧
         o.orderStatus = sPending) ∧
    (∀ (db : DB) (oid status : String) (db' : DB) (o o' : Order),
       db.orders.find? (fun x => x.id == oid) = some o →
       o.orderStatus ∈ [sPending, sAccepted, sDelivered, sCancelled] →
       setStatus db oid status = (Resp.ok (), db') →
       db'.orders.find? (fun x => x.id == oid) = some o' →
       o.orderStatus ≠ o'.orderStatus →
       allowedChange o.orderStatus o'.orderStatus) ∧
    (∀ (db : DB) (oid status : String) (o : Order),
       db.orders.find? (fun x => x.id == oid) = some o →
       o.orderStatus ∈ [sDelivered, sCancelled] →
       (setStatus db oid status).2 = db ∧
       ∀ db', setStatus db oid status ≠ (Resp.ok (), db')) := by
  refine ⟨?_, ?_, ?_⟩
  · intro db input now
    exact ⟨_, rfl, rfl⟩
  · intro db oid status db' o o' hfind hreach hset hfind' hne
    rw [setStatus_ok_iff] at hset
    obtain ⟨hv, o0, hfo0, hterm, hdel, rfl⟩ := hset
    rw [hfind] at hfo0
    injection hfo0 with ho
    subst ho
    dsimp only at hfind'
    have hupd := find?_updateFirst (fun x : Order => x.id == oid)
      (fun x : Order => { x with orderStatus := status }) db.orders (fun x => rfl)
    rw [hupd, hfind, Option.map_some'] at hfind'
    injection hfind' with h'
    have hne' : o.orderStatus ≠ status := fun hc => hne (by rw [← h', hc])
    have hgoal : allowedChange o.orderStatus status → allowedChange o.orderStatus o'.orderStatus := by
      intro hx
      rwa [← h']
    apply hgoal
    simp only [validStatus, List.mem_cons, List.not_mem_nil, or_false] at hv
    simp only [List.mem_cons, List.not_mem_nil, or_false] at hreach
    rcases hv with rfl | rfl | rfl <;>
      rcases hreach with h | h | h | h <;>
      rw [h] at hterm hdel hne' ⊢ <;>
      first
        | exact absurd (by decide) hne'
        | exact absurd (by decide) hterm
        | exact absurd (by decide) hdel
        | (unfold allowedChange; decide)
  · intro db oid status o hfind hterm
    have hterm2 : o.orderStatus ∈ [sCancelled, sDelivered] := by
      rcases (by simpa using hterm : o.orderStatus = sDelivered ∨ o.orderStatus = sCancelled)
        with h | h <;> simp [h]
    constructor
    · by_cases hv : status ∈ validStatus
      · simp only [setStatus, hfind, if_neg (not_not_intro hv)]
        rw [if_pos hterm2]
      · simp only [setStatus, if_pos (by simpa using hv)]
    · intro db' hc
      rw [setStatus_ok_iff] at hc
      obtain ⟨_, o0, hfo0, hterm', _, _⟩ := hc
      rw [hfind] at hfo0
      injection hfo0 with ho
      subst ho
      exact hterm' hterm2

/-- C5: markPaid succeeds on an existing order with no check of orderStatus,
leaving paymentStatus paid and paidAt stamped with the call time; a second
call still answers ok, keeps paymentStatus paid and refreshes paidAt. -/
theorem C5_markPaid (db : DB) (oid : String) (o : Order) (t1 t2 : Nat)
    (hfind : db.orders.find? (fun x => x.id == oid) = some o) :
    (markPaid db oid t1).1 = Resp.ok () ∧
    ((markPaid db oid t1).2.orders.find? (fun x => x.id == oid)
       = some { o with paymentStatus := sPaid, paidAt := some t1 }) ∧
    (markPaid (markPaid db oid t1).2 oid t2).1 = Resp.ok () ∧
    ((markPaid (markPaid db oid t1).2 oid t2).2.orders.find? (fun x => x.id == oid)
       = some { o with paymentStatus := sPaid, paidAt := some t2 }) := by
  have h1 : List.find? (fun x : Order => x.id == oid)
      (updateFirst (fun x : Order => x.id == oid)
        (fun x : Order => { x with paymentStatus := sPaid, paidAt := some t1 }) db.orders)
      = some { o with paymentStatus := sPaid, paidAt := some t1 } := by
    rw [find?_updateFirst (fun x : Order => x.id == oid)
      (fun x : Order => { x with paymentStatus := sPaid, paidAt := some t1 })
      db.orders (fun x => rfl), hfind, Option.map_some']
  have h2 : List.find? (fun x : Order => x.id == oid)
      (updateFirst (fun x : Order => x.id == oid)
        (fun x : Order => { x with paymentStatus := sPaid, paidAt := some t2 })
        (updateFirst (fun x : Order => x.id == oid)
          (fun x : Order => { x with paymentStatus := sPaid, paidAt := some t1 }) db.orders))
      = some { o with paymentStatus := sPaid, paidAt := some t2 } := by
    rw [find?_updateFirst (fun x : Order => x.id == oid)
      (fun x : Order => { x with paymentStatus := sPaid, paidAt := some t2 })
      _ (fun x => rfl), h1, Option.map_some']
  exact ⟨rfl, h1, rfl, h2⟩

/-- C6: deleteOrder answers 404 when the order is absent, 403 when the
principal is not the buyer, and otherwise removes the order whatever its
orderStatus and paymentStatus are; with distinct order ids the order is gone
afterwards. -/
theorem C6_deleteOrder :
    (∀ (db : DB) (oid principal : String),
       db.orders.find? (fun x => x.id == oid) = none →
       deleteOrder db oid principal = (Resp.err 404 "Order not found", db)) ∧
    (∀ (db : DB) (oid principal : String) (o : Order),
       db.orders.find? (fun x => x.id == oid) = some o →
       o.userEmail ≠ principal →
       deleteOrder db oid principal = (Resp.err 403 "Forbidden", db)) ∧
    (∀ (db : DB) (oid : String) (o : Order),
       db.orders.find? (fun x => x.id == oid) = some o →
       (db.orders.map (fun x => x.id)).Nodup →
       deleteOrder db oid o.userEmail
         = (Resp.ok (), { db with orders := db.orders.eraseP (fun x => x.id == oid) }) ∧
       (deleteOrder db oid o.userEmail).2.orders.find? (fun x => x.id == oid) = none) := by
  refine ⟨?_, ?_, ?_⟩
  · intro db oid principal h
    simp only [deleteOrder, h]
  · intro db oid principal o h hne
    simp only [deleteOrder, h]
    rw [if_pos hne]
  · intro db oid o h hnd
    have heq : deleteOrder db oid o.userEmail
        = (Resp.ok (), { db with orders := db.orders.eraseP (fun x => x.id == oid) }) := by
      simp only [deleteOrder, h]
      rw [if_neg (by simp)]
    refine ⟨heq, ?_⟩
    rw [heq]
    exact find?_eraseP_of_nodup (fun x : Order => x.id) oid db.orders hnd

/-- C7: on every self-access or owner-access guarded endpoint the claims
name, a principal different from the target or owner email gets the 403
Forbidden error and the database is unchanged, with no data in the
response. -/
theorem C7_forbidden :
    (∀ (db : DB) (email principal : String), email ≠ principal →
       getOrders db email principal = (Resp.err 403 "Forbidden", db)) ∧
    (∀ (db : DB) (oid principal : String) (o : Order),
       db.orders.find? (fun x => x.id == oid) = some o →
       o.userEmail ≠ principal →
       deleteOrder db oid principal = (Resp.err 403 "Forbidden", db)) ∧
    (∀ (db : DB) (rid principal : String) (r : Review),
       db.reviews.find? (fun x => x.id == rid) = some r →
       r.reviewerEmail ≠ principal →
       deleteReview db rid principal = (Resp.err 403 "Forbidden", db)) ∧
    (∀ (db : DB) (email principal : String), email ≠ principal →
       getFavorites db email principal = (Resp.err 403 "Forbidden", db)) ∧
    (∀ (db : DB) (email principal : String), email ≠ principal →
       getReviews db email principal = (Resp.err 403 "Forbidden", db)) := by
  refine ⟨?_, ?_, ?_, ?_, ?_⟩
  · intro db email principal h
    simp only [getOrders]
    rw [if_pos h]
  · intro db oid principal o h hne
    simp only [deleteOrder, h]
    rw [if_pos hne]
  · intro db rid principal r h hne
    simp only [deleteReview, h]
    rw [if_pos hne]
  · intro db email principal h
    simp only [getFavorites]
    rw [if_pos h]
  · intro db email principal h
    simp only [getReviews]
    rw [if_pos h]

/-- C8: a successful deleteReview removes exactly the review document; the
food collection (so the meal and its rating), the orders and the favorites
are untouched, and no rating recomputation happens. -/
theorem C8_deleteReview_frame (db : DB) (rid : String) (r : Review)
    (hfind : db.reviews.find? (fun x => x.id == rid) = some r) :
    deleteReview db rid r.reviewerEmail
      = (Resp.ok (), { db with reviews := db.reviews.eraseP (fun x => x.id == rid) }) ∧
    (deleteReview db rid r.reviewerEmail).2.foods = db.foods ∧
    (deleteReview db rid r.reviewerEmail).2.orders = db.orders ∧
    (deleteReview db rid r.reviewerEmail).2.favorites = db.favorites := by
  have heq : deleteReview db rid r.reviewerEmail
      = (Resp.ok (), { db with reviews := db.reviews.eraseP (fun x => x.id == rid) }) := by
    simp only [deleteReview, hfind]
    rw [if_neg (by simp)]
  exact ⟨heq, by rw [heq], by rw [heq], by rw [heq]⟩

/-- One favorite insertion preserves the at-most-one-per-pair invariant. -/
theorem addFavorite_unique (db : DB) (input : FavoriteInput) (now : Nat)
    (h : favUnique db.favorites) : favUnique (addFavorite db input now).2.favorites := by
  unfold addFavorite
  cases hfo : db.favorites.find?
      (fun f => f.userEmail == input.userEmail && f.mealId == input.mealId) with
  | some f => exact h
  | none =>
    dsimp only
    unfold favUnique
    rw [List.pairwise_append]
    refine ⟨h, List.pairwise_singleton _ _, ?_⟩
    intro a ha b hb
    rw [List.mem_singleton] at hb
    subst hb
    rw [List.find?_eq_none] at hfo
    have hna := hfo a ha
    intro hcon
    exact hna (by simp [hcon.1, hcon.2])

/-- C9: starting from a database satisfying the uniqueness invariant, any
sequence of favorite insertions preserves it, and an insertion whose
(userEmail, mealId) pair already exists answers success false and leaves the
database unchanged. -/
theorem C9_favorites_unique :
    (∀ (db : DB) (l : List (FavoriteInput × Nat)), favUnique db.favorites →
       favUnique (runFavorites db l).favorites) ∧
    (∀ (db : DB) (input : FavoriteInput) (now : Nat),
       ((db.favorites.find? (fun f => f.userEmail == input.userEmail
          && f.mealId == input.mealId))).isSome →
       addFavorite db input now = (false, db)) := by
  constructor
  · intro db l
    induction l generalizing db with
    | nil => intro h; exact h
    | cons a t ih =>
      intro h
      rw [runFavorites]
      exact ih _ (addFavorite_unique db a.1 a.2 h)
  · intro db input now h
    obtain ⟨f, hf⟩ := Option.isSome_iff_exists.mp h
    simp only [addFavorite, hf]

/-- C10: markPaid performs no existence check: on an id matching no order it
still answers ok and leaves the database unchanged, while setStatus (for any
valid requested status) and deleteOrder answer 404 on the same id. -/
theorem C10_markPaid_no_notfound (db : DB) (oid : String) (now : Nat) (principal : String)
    (h : db.orders.find? (fun x => x.id == oid) = none) :
    markPaid db oid now = (Resp.ok (), db) ∧
    (∀ status, status ∈ validStatus →
       setStatus db oid status = (Resp.err 404 "Order not found", db)) ∧
    deleteOrder db oid principal = (Resp.err 404 "Order not found", db) := by
  refine ⟨?_, ?_, ?_⟩
  · simp only [markPaid]
    rw [updateFirst_of_none _ _ _ h]
  · intro status hv
    simp only [setStatus, h, if_neg (not_not_intro hv)]
  · simp only [deleteOrder, h]

/-- Concrete instantiation of the C1 theorem: two reviews of ratings 4 and 2
on the sample meal. -/
theorem C1_rating_is_mean_witness :
    ∃ m, (runReviews dbW [(rinW1, 1), (rinW2, 2)]).foods.find? (fun m => m.id == midW) = some m ∧
      m.rating = meanOfRatings
        (((runReviews dbW [(rinW1, 1), (rinW2, 2)]).reviews.filter (fun r => r.foodId == midW))) :=
  C1_rating_is_mean dbW midW [(rinW1, 1), (rinW2, 2)] (by decide) (by decide) (by decide)

/-- Concrete instantiation of the C2 theorem on the delivered sample order. -/
theorem C2_terminal_rejects_witness :
    setStatus dbTerm oidW sAccepted = (Resp.err 400 "Order already closed", dbTerm) :=
  C2_terminal_rejects dbTerm oidW sAccepted orderDelivered (by decide) (by decide) (by decide)

/-- Concrete instantiation of the C3 theorem on the pending sample order. -/
theorem C3_delivered_needs_accepted_witness :
    ∃ msg, setStatus dbOrders oidW sDelivered = (Resp.err 400 msg, dbOrders) :=
  C3_delivered_needs_accepted dbOrders oidW orderW (by decide) (by decide)

/-- Concrete instantiation of the C4 theorem: accepting the pending sample
order is an allowed change. -/
theorem C4_lifecycle_witness :
    allowedChange orderW.orderStatus orderAccepted.orderStatus :=
  C4_lifecycle.2.1 dbOrders oidW sAccepted dbOrdersAccepted orderW orderAccepted
    (by decide) (by decide) (by decide) (by decide) (by decide)

/-- Concrete instantiation of the C5 theorem: paying the sample order twice. -/
theorem C5_markPaid_witness :
    (markPaid dbOrders oidW 10).1 = Resp.ok () ∧
    ((markPaid dbOrders oidW 10).2.orders.find? (fun x => x.id == oidW)
       = some { orderW with paymentStatus := sPaid, paidAt := some 10 }) ∧
    (markPaid (markPaid dbOrders oidW 10).2 oidW 20).1 = Resp.ok () ∧
    ((markPaid (markPaid dbOrders oidW 10).2 oidW 20).2.orders.find? (fun x => x.id == oidW)
       = some { orderW with paymentStatus := sPaid, paidAt := some 20 }) :=
  C5_markPaid dbOrders oidW orderW 10 20 (by decide)

/-- Concrete instantiation of the C6 theorem: missing order, wrong principal,
and owner deletion. -/
theorem C6_deleteOrder_witness :
    deleteOrder dbEmpty oidW aliceW = (Resp.err 404 "Order not found", dbEmpty) ∧
    deleteOrder dbOrders oidW bobW = (Resp.err 403 "Forbidden", dbOrders) ∧
    (deleteOrder dbOrders oidW orderW.userEmail
       = (Resp.ok (), { dbOrders with orders := dbOrders.orders.eraseP (fun x => x.id == oidW) }) ∧
     (deleteOrder dbOrders oidW orderW.userEmail).2.orders.find? (fun x => x.id == oidW) = none) :=
  ⟨C6_deleteOrder.1 dbEmpty oidW aliceW (by decide),
   C6_deleteOrder.2.1 dbOrders oidW bobW orderW (by decide) (by decide),
   C6_deleteOrder.2.2 dbOrders oidW orderW (by decide) (by decide)⟩

/-- Concrete instantiation of the C7 theorem on all five guarded endpoints. -/
theorem C7_forbidden_witness :
    getOrders dbOrders aliceW bobW = (Resp.err 403 "Forbidden", dbOrders) ∧
    deleteOrder dbOrders oidW bobW = (Resp.err 403 "Forbidden", dbOrders) ∧
    deleteReview dbRev ridW aliceW = (Resp.err 403 "Forbidden", dbRev) ∧
    getFavorites dbFav aliceW bobW = (Resp.err 403 "Forbidden", dbFav) ∧
    getReviews dbRev aliceW bobW = (Resp.err 403 "Forbidden", dbRev) :=
  ⟨C7_forbidden.1 dbOrders aliceW bobW (by decide),
   C7_forbidden.2.1 dbOrders oidW bobW orderW (by decide) (by decide),
   C7_forbidden.2.2.1 dbRev ridW aliceW reviewW (by decide) (by decide),
   C7_forbidden.2.2.2.1 dbFav aliceW bobW (by decide),
   C7_forbidden.2.2.2.2 dbRev aliceW bobW (by decide)⟩

/-- Concrete instantiation of the C8 theorem on the sample review. -/
theorem C8_deleteReview_frame_witness :
    deleteReview dbRev ridW reviewW.reviewerEmail
      = (Resp.ok (), { dbRev with reviews := dbRev.reviews.eraseP (fun x => x.id == ridW) }) ∧
    (deleteReview dbRev ridW reviewW.reviewerEmail).2.foods = dbRev.foods ∧
    (deleteReview dbRev ridW reviewW.reviewerEmail).2.orders = dbRev.orders ∧
    (deleteReview dbRev ridW reviewW.reviewerEmail).2.favorites = dbRev.favorites :=
  C8_deleteReview_frame dbRev ridW reviewW (by decide)

/-- Concrete instantiation of the C9 theorem: inserting the same favorite
twice from the empty database, and a duplicate insertion refused. -/
theorem C9_favorites_unique_witness :
    favUnique (runFavorites dbEmpty [(favInW, 1), (favInW, 2)]).favorites ∧
    addFavorite dbFav favInW 7 = (false, dbFav) :=
  ⟨C9_favorites_unique.1 dbEmpty [(favInW, 1), (favInW, 2)] (by exact List.Pairwise.nil),
   C9_favorites_unique.2 dbFav favInW 7 (by decide)⟩

/-- Concrete instantiation of the C10 theorem on the empty database. -/
theorem C10_markPaid_no_notfound_witness :
    markPaid dbEmpty oidW 5 = (Resp.ok (), dbEmpty) ∧
    setStatus dbEmpty oidW sAccepted = (Resp.err 404 "Order not found", dbEmpty) ∧
    deleteOrder dbEmpty oidW aliceW = (Resp.err 404 "Order not found", dbEmpty) :=
  ⟨(C10_markPaid_no_notfound dbEmpty oidW 5 aliceW (by decide)).1,
   (C10_markPaid_no_notfound dbEmpty oidW 5 aliceW (by decide)).2.1 sAccepted (by decide),
   (C10_markPaid_no_notfound dbEmpty oidW 5 aliceW (by decide)).2.2⟩
